import Mathlib

/-!
A shallow embedding of the FitLife Pro health tracker's core logic
(`p3.py` profile targets, meal planner, streak, CSV loader, and the
`chatbot.py` fuzzy symptom matcher), together with theorems checking the
specification's claims against it.

Numeric modelling: Python floats are modelled by exact rationals (`ℚ`);
`int()` truncation toward zero is `pyInt`; Python's `round(x, 1)`
(round-half-to-even) is `pyRound1`.  Randomness in the meal planner is
modelled by an arbitrary index stream `r : ℕ → ℕ`; the selection made by
`DataFrame.sample(1)` is the `r k % pool.length`-th element of the pool,
so quantifying over `r` covers every possible random outcome.
-/

/-- Python `int()` on a rational: truncation toward zero. -/
def pyInt (q : ℚ) : ℤ := if q < 0 then ⌈q⌉ else ⌊q⌋

/-- Rounding to the nearest integer, halves to the even neighbour
(Python's `round` on exactly representable values). -/
def pyRound0 (q : ℚ) : ℤ :=
  if q - ⌊q⌋ = 1/2 then (if ⌊q⌋ % 2 = 0 then ⌊q⌋ else ⌊q⌋ + 1) else round q

/-- Python `round(x, 1)`: round to one decimal place. -/
def pyRound1 (q : ℚ) : ℚ := (pyRound0 (10 * q) : ℚ) / 10

/-- First word of a string under Python `str.split()` semantics
(split on whitespace runs, drop empty pieces); `none` when there is no
word, in which case `activity.split()[0]` in the source would raise. -/
def firstWord (s : String) : Option String :=
  ((s.split Char.isWhitespace).filter (fun w => w ≠ "")).head?

/-- Activity-multiplier lookup `act_map.get(first_word, 1.2)` from
`save_profile` in `p3.py`. -/
def act_map (w : String) : ℚ :=
  if w = "Sedentary" then 1.2
  else if w = "Lightly" then 1.375
  else if w = "Moderately" then 1.55
  else if w = "Very" then 1.725
  else if w = "Super" then 1.9
  else 1.2

/-- The `Targets` sub-record written by `save_profile`: target calories,
target protein grams, water goal, and the macro-percentage triple. -/
structure Targets where
  calories : ℤ
  protein : ℤ
  water : ℤ
  mSplit : ℕ × ℕ × ℕ
deriving DecidableEq

/-- The profile record written by `save_profile` in `p3.py`. -/
structure Profile where
  name : String
  age : ℚ
  gender : String
  height : ℚ
  startWeight : ℚ
  currentWeight : ℚ
  activity : String
  goal : String
  targets : Targets
deriving DecidableEq

/-- Goal adjustment from `save_profile`: target calories and the macro
triple chosen for each goal string (tuples exactly as in the source). -/
def goalAdjust (tdee : ℚ) (goal : String) : ℚ × (ℕ × ℕ × ℕ) :=
  if goal = "Weight Loss" then (tdee - 500, (40, 40, 20))
  else if goal = "Weight Gain" then (tdee + 500, (50, 25, 25))
  else if goal = "Muscle Gain" then (tdee + 250, (45, 35, 20))
  else (tdee, (50, 20, 30))

/-- The pure core of `save_profile` in `p3.py`: Mifflin-St Jeor BMR,
activity multiplier keyed on the first word of the activity label, goal
adjustment, and the protein-gram computation
`int((target * (macros[1] / 100)) / 4)`.  Returns `none` when the
activity label has no first word (the source would raise there). -/
def save_profile (name : String) (age : ℚ) (gender : String) (height weight : ℚ)
    (activity goal : String) (water_goal : ℤ) : Option Profile :=
  let bmr : ℚ :=
    if gender = "Male" then 10 * weight + 6.25 * height - 5 * age + 5
    else 10 * weight + 6.25 * height - 5 * age - 161
  match firstWord activity with
  | none => none
  | some w =>
    let tdee := bmr * act_map w
    let tm := goalAdjust tdee goal
    let rec_prot := pyInt (tm.1 * ((tm.2.2.1 : ℚ) / 100) / 4)
    some
      { name := name, age := age, gender := gender, height := height
        startWeight := weight, currentWeight := weight
        activity := activity, goal := goal
        targets :=
          { calories := pyInt tm.1, protein := rec_prot
            water := water_goal, mSplit := tm.2 } }

/-- A row of the food catalog (`Enhanced_Indian_Food_Nutrition.csv`
columns used by the meal planner). -/
structure FoodItem where
  dishName : String
  calories : ℚ
  protein : ℚ
  diet : String
  servingUnit : String
deriving DecidableEq

/-- Placeholder item for the (unreachable) out-of-range list access. -/
def defaultFoodItem : FoodItem := ⟨"", 0, 0, "", ""⟩

/-- One generated meal record (`generate_meal_plan` appends these). -/
structure Meal where
  type : String
  dish : String
  qty : ℚ
  unit : String
  cals : ℤ
  diet : String
deriving DecidableEq

/-- One generated day: its meal list and running calorie total. -/
structure DayPlan where
  meals : List Meal
  total : ℤ
deriving DecidableEq

/-- The fixed meal-slot calorie shares from `generate_meal_plan`. -/
def budgets : List (String × ℚ) :=
  [("Breakfast", 0.25), ("Lunch", 0.35), ("Dinner", 0.30), ("Snack", 0.10)]

/-- Diet filter step: `if diet_pref == "Vegetarian": df = df[df["Diet"] == "Veg"]`. -/
def dietFilter (pref : String) (df : List FoodItem) : List FoodItem :=
  if pref = "Vegetarian" then df.filter (fun it => it.diet = "Veg") else df

/-- Insertion into a sorted list (helper for the stable sort below). -/
def insertBy (le : FoodItem → FoodItem → Bool) (x : FoodItem) :
    List FoodItem → List FoodItem
  | [] => [x]
  | y :: ys => if le x y then x :: y :: ys else y :: insertBy le x ys

/-- Insertion sort used to model `DataFrame.sort_values`. -/
def sortBy (le : FoodItem → FoodItem → Bool) : List FoodItem → List FoodItem
  | [] => []
  | x :: xs => insertBy le x (sortBy le xs)

/-- Goal-dependent ranking from `generate_meal_plan`: Muscle Gain sorts
descending by protein per serving, Weight Loss ascending by calories per
serving, anything else leaves the order unchanged. -/
def goalSort (goal : String) (df : List FoodItem) : List FoodItem :=
  if goal = "Muscle Gain" then sortBy (fun a b => decide (b.protein ≤ a.protein)) df
  else if goal = "Weight Loss" then sortBy (fun a b => decide (a.calories ≤ b.calories)) df
  else df

/-- Candidate set for a meal budget: items whose calories per serving lie
within ±150 kcal of the budget. -/
def candidatesFor (df : List FoodItem) (budget : ℚ) : List FoodItem :=
  df.filter (fun it => decide (budget - 150 ≤ it.calories ∧ it.calories ≤ budget + 150))

/-- Selection pool: the candidates, or the whole catalog as fallback when
the candidate set is empty (`if candidates.empty: candidates = df_food`). -/
def selPool (df : List FoodItem) (budget : ℚ) : List FoodItem :=
  if candidatesFor df budget = [] then df else candidatesFor df budget

/-- One meal of `generate_meal_plan`: random selection from the pool,
serving quantity `max(0.5, min(round(budget / cps, 1), 3.0))`, and
calories `int(cps * qty)`. -/
def makeMeal (df : List FoodItem) (target : ℚ) (slot : String × ℚ) (n : ℕ) : Meal :=
  let budget := target * slot.2
  let sel := (selPool df budget).getD (n % (selPool df budget).length) defaultFoodItem
  let qty : ℚ := max (1/2) (min (pyRound1 (budget / sel.calories)) 3)
  ⟨slot.1, sel.dishName, qty, sel.servingUnit, pyInt (sel.calories * qty), sel.diet⟩

/-- The meals of one day, consuming one random index per slot. -/
def mkMeals (df : List FoodItem) (target : ℚ) (slots : List (String × ℚ))
    (r : ℕ → ℕ) (k : ℕ) : List Meal :=
  match slots with
  | [] => []
  | s :: rest => makeMeal df target s (r k) :: mkMeals df target rest r (k + 1)

/-- One day of the plan: its four meals and their calorie total. -/
def mkDay (df : List FoodItem) (target : ℚ) (r : ℕ → ℕ) (d : ℕ) : DayPlan :=
  ⟨mkMeals df target budgets r (4 * d),
   ((mkMeals df target budgets r (4 * d)).map Meal.cals).sum⟩

/-- `generate_meal_plan` from `p3.py`: diet filter, goal ranking, then
per day and slot a random selection under the budget window with
fallback.  Returns `none` when the filtered catalog is empty (there
`candidates.sample(1)` in the source would raise). -/
def generate_meal_plan (df0 : List FoodItem) (target_cals : ℚ)
    (goal diet_pref : String) (days : ℕ) (r : ℕ → ℕ) : Option (List DayPlan) :=
  if goalSort goal (dietFilter diet_pref df0) = [] then none
  else some ((List.range days).map
    (fun d => mkDay (goalSort goal (dietFilter diet_pref df0)) target_cals r d))

/-- Python `str.strip()` on ASCII text: drop whitespace at both ends. -/
def pyStrip (s : String) : String :=
  ⟨((s.data.dropWhile Char.isWhitespace).reverse.dropWhile Char.isWhitespace).reverse⟩

/-- Character stream of Python `str.title()`: uppercase a letter that
follows a non-letter, lowercase a letter that follows a letter. -/
def titleChars : List Char → Bool → List Char
  | [], _ => []
  | c :: cs, prevAlpha =>
    (if c.isAlpha then (if prevAlpha then c.toLower else c.toUpper) else c)
      :: titleChars cs c.isAlpha

/-- Python `str.title()`. -/
def pyTitle (s : String) : String := ⟨titleChars s.data false⟩

/-- The chatbot's input normalization `inp.strip().title()`. -/
def cleanInput (s : String) : String := pyTitle (pyStrip s)

/-- Pair each list element with its positional index, starting at `n`. -/
def withIdx (n : ℕ) : List String → List (ℕ × String)
  | [] => []
  | c :: cs => (n, c) :: withIdx (n + 1) cs

/-- Best-scoring candidate (earliest index wins ties), the core of
`rapidfuzz.process.extractOne`, parametrized by the similarity scorer.
Returns `(choice, score, index)`. -/
def best (score : String → String → ℚ) (q : String) :
    List (ℕ × String) → Option (String × ℚ × ℕ)
  | [] => none
  | (i, c) :: rest =>
    Option.elim (best score q rest) (some (c, score q c, i))
      (fun b => if score q c < b.2.1 then some b else some (c, score q c, i))

/-- `process.extractOne(query, choices, score_cutoff)`: the best match,
or `none` when its score is below the cutoff. -/
def extractOne (score : String → String → ℚ) (q : String)
    (choices : List String) (cutoff : ℚ) : Option (String × ℚ × ℕ) :=
  Option.elim (best score q (withIdx 0 choices)) none
    (fun b => if cutoff ≤ b.2.1 then some b else none)

/-- `Matcher` from `chatbot.py`: fuzzy-match the input against the
symptom column with `score_cutoff=70` and return the row index, or
`None` on no match. -/
def Matcher (score : String → String → ℚ) (choices : List String)
    (inp : String) : Option ℕ :=
  Option.elim (extractOne score inp choices 70) none (fun m => some m.2.2)

/-- Distinct parseable calendar days of a food log's `Date` column: each
entry is modelled by its `pd.to_datetime(.., errors='coerce')` outcome,
`some day` or `none` for an unparseable date (dropped). -/
def validDates (dates : List (Option ℤ)) : List ℤ := (dates.filterMap id).dedup

/-- The backward-counting `while check_date in valid_dates` loop of
`calculate_streak`; `fuel` only bounds the recursion and never truncates
the count when `fuel ≥` the number of distinct valid dates. -/
def runLen : ℕ → List ℤ → ℤ → ℕ
  | 0, _, _ => 0
  | fuel + 1, s, d => if d ∈ s then runLen fuel s (d - 1) + 1 else 0

/-- The streak value of `calculate_streak`: start at today, fall back to
yesterday, else 0; then count consecutive preceding days. -/
def streakVal (dates : List (Option ℤ)) (today : ℤ) : ℕ :=
  if validDates dates = [] then 0
  else if today ∈ validDates dates then
    runLen (validDates dates).length (validDates dates) today
  else if today - 1 ∈ validDates dates then
    runLen (validDates dates).length (validDates dates) (today - 1)
  else 0

/-- A food-log table: the parse outcomes of its `Date` column and its
column names (enough to observe the `DateObj` column the source adds). -/
structure FoodLog where
  dates : List (Option ℤ)
  cols : List String
deriving DecidableEq

/-- Effect of `df_food["DateObj"] = pd.to_datetime(...)` on the column
list: adds the column when absent, overwrites (keeps) it when present. -/
def addDateObjCol (cols : List String) : List String :=
  if "DateObj" ∈ cols then cols else cols ++ ["DateObj"]

/-- `calculate_streak` from `p3.py`, with its in-place `DateObj` column
assignment made explicit: returns the streak together with the state of
the caller's table afterwards. -/
def calculate_streak (df : Option FoodLog) (today : ℤ) : ℕ × Option FoodLog :=
  match df with
  | none => (0, none)
  | some d =>
    if d.dates = [] then (0, some d)
    else (streakVal d.dates today, some ⟨d.dates, addDateObjCol d.cols⟩)

/-- The states a CSV source can be in for `load_data_safe`. -/
inductive CsvSource (α : Type) where
  | missing : CsvSource α
  | zeroLength : CsvSource α
  | parsed (rows : List α) : CsvSource α
deriving DecidableEq

/-- Errors `pd.read_csv` can raise in this model. -/
inductive PdError where
  | emptyData : PdError
  | fileNotFound : PdError
deriving DecidableEq

/-- `pd.read_csv`: raises `EmptyDataError` on a zero-length file,
`FileNotFoundError` on a missing one, else yields the parsed rows (a
header-only file parses to an empty row list). -/
def read_csv {α : Type} : CsvSource α → Except PdError (List α)
  | .missing => .error .fileNotFound
  | .zeroLength => .error .emptyData
  | .parsed rows => .ok rows

/-- The `try: ... except pd.errors.EmptyDataError` body of
`load_data_safe`: only `EmptyDataError` is caught. -/
def tryLoad {α : Type} (f : CsvSource α) : Except PdError (Option (List α)) :=
  match read_csv f with
  | .ok rows => .ok (if rows.isEmpty then none else some rows)
  | .error .emptyData => .ok none
  | .error e => .error e

/-- `load_data_safe` from `p3.py`: `os.path.exists` guard, then the
guarded read; the result is `.ok none` for every no-data state. -/
def load_data_safe {α : Type} (f : CsvSource α) : Except PdError (Option (List α)) :=
  match f with
  | .missing => .ok none
  | f' => tryLoad f'

/-- The default symptom catalog shipped by `initialize_databases`. -/
def defaultSymptoms : List String :=
  ["Headache", "Fever", "Cold", "Indigestion", "Sore Throat", "Fatigue",
   "Acidity", "Insomnia", "Muscle Pain"]

/-- An exact-match similarity scorer (scores 100 on equality, else 0);
used to instantiate the abstract scorer in witnesses. -/
def eqScore (a b : String) : ℚ := if a = b then 100 else 0

/-- Two-item catalog used by concrete witnesses. -/
def dfVeg : List FoodItem :=
  [⟨"Roti", 120, 3, "Veg", "1 piece"⟩, ⟨"Chicken Curry", 400, 25, "Non-Veg", "1 bowl"⟩]

/-- Single-item catalog with odd calories per serving, used to exhibit
the truncation undershoot in the meal-calorie bound. -/
def dfX : List FoodItem := [⟨"Paneer Tikka", 125, 5, "Veg", "1 bowl"⟩]

/-- Target-calorie formula as the specification words it: Mifflin-St
Jeor basal rate, the activity multiplier for the label's first word, and
the goal offset.  Statement-side counterpart for the refinement
theorems about `save_profile`. -/
def specTargetCalories (age : ℚ) (gender : String) (height weight : ℚ)
    (w goal : String) : ℚ :=
  (if gender = "Male" then 10 * weight + 6.25 * height - 5 * age + 5
   else 10 * weight + 6.25 * height - 5 * age - 161) * act_map w +
  (if goal = "Weight Loss" then -500
   else if goal = "Weight Gain" then 500
   else if goal = "Muscle Gain" then 250 else 0)

/-- The second component of the goal's macro triple, as a percentage. -/
def specSecondPct (goal : String) : ℚ :=
  if goal = "Weight Loss" then 40
  else if goal = "Weight Gain" then 25
  else if goal = "Muscle Gain" then 35 else 20

/-- Protein grams as the amended claim words it: the un-truncated target
calories times the second macro percentage over 100, divided by 4 kcal
per gram, truncated toward zero. -/
def specProteinGrams (age : ℚ) (gender : String) (height weight : ℚ)
    (w goal : String) : ℤ :=
  pyInt (specTargetCalories age gender height weight w goal * (specSecondPct goal / 100) / 4)

/-- The profile `save_profile` computes for
(Male, 25, 170cm, 70kg, "Moderately Active", Weight Loss). -/
def profileWL : Profile :=
  ⟨"A", 25, "Male", 170, 70, 70, "Moderately Active", "Weight Loss",
   ⟨2045, 204, 2500, (40, 40, 20)⟩⟩

/-- The profile `save_profile` computes for
(Male, 25, 170cm, 70kg, "Sedentary (Office)", Weight Gain). -/
def profileWG : Profile :=
  ⟨"A", 25, "Male", 170, 70, 70, "Sedentary (Office)", "Weight Gain",
   ⟨2471, 154, 2500, (50, 25, 25)⟩⟩

/-- The plan generated from `dfVeg` (1000 kcal, Maintain, Vegetarian,
one day, constant random stream). -/
def vegPlan : List DayPlan :=
  [⟨[⟨"Breakfast", "Roti", 21/10, "1 piece", 252, "Veg"⟩,
     ⟨"Lunch", "Roti", 29/10, "1 piece", 348, "Veg"⟩,
     ⟨"Dinner", "Roti", 5/2, "1 piece", 300, "Veg"⟩,
     ⟨"Snack", "Roti", 4/5, "1 piece", 96, "Veg"⟩], 996⟩]

/-- The plan generated from `dfX` (500 kcal, Maintain, Non-Vegetarian,
one day, constant random stream); its Snack meal truncates 62.5 to 62. -/
def cxPlan : List DayPlan :=
  [⟨[⟨"Breakfast", "Paneer Tikka", 1, "1 bowl", 125, "Veg"⟩,
     ⟨"Lunch", "Paneer Tikka", 7/5, "1 bowl", 175, "Veg"⟩,
     ⟨"Dinner", "Paneer Tikka", 6/5, "1 bowl", 150, "Veg"⟩,
     ⟨"Snack", "Paneer Tikka", 1/2, "1 bowl", 62, "Veg"⟩], 512⟩]

/-! ## Helper lemmas -/

theorem pyInt_eq_floor {q : ℚ} (h : 0 ≤ q) : pyInt q = ⌊q⌋ :=
  if_neg (not_lt.mpr h)

theorem mem_insertBy {le : FoodItem → FoodItem → Bool} {x a : FoodItem}
    {l : List FoodItem} : a ∈ insertBy le x l ↔ a = x ∨ a ∈ l := by
  induction l with
  | nil => simp [insertBy]
  | cons y ys ih =>
    simp only [insertBy]
    split
    · simp [List.mem_cons]
    · simp only [List.mem_cons, ih]
      tauto

theorem mem_sortBy {le : FoodItem → FoodItem → Bool} {a : FoodItem}
    {l : List FoodItem} : a ∈ sortBy le l ↔ a ∈ l := by
  induction l with
  | nil => simp [sortBy]
  | cons x xs ih => simp [sortBy, mem_insertBy, ih]

theorem mem_goalSort {g : String} {df : List FoodItem} {a : FoodItem} :
    a ∈ goalSort g df ↔ a ∈ df := by
  unfold goalSort
  split_ifs <;> simp [mem_sortBy]

theorem goalSort_eq_nil {g : String} {df : List FoodItem} :
    goalSort g df = [] ↔ df = [] := by
  rw [List.eq_nil_iff_forall_not_mem, List.eq_nil_iff_forall_not_mem]
  simp [mem_goalSort]

theorem dietFilter_sub {pref : String} {df : List FoodItem} :
    dietFilter pref df ⊆ df := by
  unfold dietFilter
  split
  · exact fun a ha => (List.mem_filter.mp ha).1
  · exact List.Subset.refl _

theorem mem_dietFilter_veg {df : List FoodItem} {a : FoodItem}
    (h : a ∈ dietFilter "Vegetarian" df) : a ∈ df ∧ a.diet = "Veg" := by
  unfold dietFilter at h
  rw [if_pos rfl] at h
  simpa [List.mem_filter] using h

theorem mem_candidatesFor {df : List FoodItem} {b : ℚ} {a : FoodItem} :
    a ∈ candidatesFor df b ↔ a ∈ df ∧ (b - 150 ≤ a.calories ∧ a.calories ≤ b + 150) := by
  simp [candidatesFor, List.mem_filter]

theorem selPool_ne_nil {df : List FoodItem} {b : ℚ} (h : df ≠ []) :
    selPool df b ≠ [] := by
  unfold selPool
  split
  · exact h
  · assumption

theorem selPool_sub {df : List FoodItem} {b : ℚ} : selPool df b ⊆ df := by
  unfold selPool
  split
  · exact List.Subset.refl _
  · exact fun a ha => (mem_candidatesFor.mp ha).1

theorem mem_selPool_cases {df : List FoodItem} {b : ℚ} {a : FoodItem}
    (h : a ∈ selPool df b) :
    a ∈ candidatesFor df b ∨ (candidatesFor df b = [] ∧ a ∈ df) := by
  unfold selPool at h
  split at h
  · exact Or.inr ⟨by assumption, h⟩
  · exact Or.inl h

theorem getD_mod_mem {l : List FoodItem} (h : l ≠ []) (n : ℕ) :
    l.getD (n % l.length) defaultFoodItem ∈ l := by
  have hl : 0 < l.length := List.length_pos.mpr h
  have hn : n % l.length < l.length := Nat.mod_lt _ hl
  rw [List.getD_eq_getElem _ _ hn]
  exact List.getElem_mem hn

theorem makeMeal_spec (df : List FoodItem) (target : ℚ) (slot : String × ℚ)
    (n : ℕ) (h : df ≠ []) :
    ∃ item ∈ selPool df (target * slot.2),
      makeMeal df target slot n =
        ⟨slot.1, item.dishName,
         max (1/2) (min (pyRound1 (target * slot.2 / item.calories)) 3),
         item.servingUnit,
         pyInt (item.calories * max (1/2) (min (pyRound1 (target * slot.2 / item.calories)) 3)),
         item.diet⟩ :=
  ⟨_, getD_mod_mem (selPool_ne_nil h) n, rfl⟩

theorem mem_mkMeals {df : List FoodItem} {target : ℚ}
    {slots : List (String × ℚ)} {r : ℕ → ℕ} {k : ℕ} {meal : Meal}
    (h : meal ∈ mkMeals df target slots r k) :
    ∃ slot ∈ slots, ∃ n, meal = makeMeal df target slot n := by
  induction slots generalizing k with
  | nil => simp [mkMeals] at h
  | cons s rest ih =>
    simp only [mkMeals, List.mem_cons] at h
    rcases h with rfl | h
    · exact ⟨s, List.mem_cons_self _ _, r k, rfl⟩
    · obtain ⟨slot, hslot, n, hn⟩ := ih h
      exact ⟨slot, List.mem_cons_of_mem _ hslot, n, hn⟩

theorem mkMeals_length (df : List FoodItem) (target : ℚ)
    (slots : List (String × ℚ)) (r : ℕ → ℕ) (k : ℕ) :
    (mkMeals df target slots r k).length = slots.length := by
  induction slots generalizing k with
  | nil => rfl
  | cons s rest ih => simp [mkMeals, ih]

theorem generate_eq_some {df0 : List FoodItem} {target : ℚ}
    {goal pref : String} {days : ℕ} {r : ℕ → ℕ}
    (h : dietFilter pref df0 ≠ []) :
    generate_meal_plan df0 target goal pref days r =
      some ((List.range days).map
        (fun d => mkDay (goalSort goal (dietFilter pref df0)) target r d)) := by
  unfold generate_meal_plan
  rw [if_neg]
  intro hnil
  exact h (goalSort_eq_nil.mp hnil)

theorem candidatesFor_goalSort {g : String} {df : List FoodItem} {b : ℚ}
    {a : FoodItem} :
    a ∈ candidatesFor (goalSort g df) b ↔ a ∈ candidatesFor df b := by
  simp [mem_candidatesFor, mem_goalSort]

theorem candidatesFor_goalSort_nil {g : String} {df : List FoodItem} {b : ℚ} :
    candidatesFor (goalSort g df) b = [] ↔ candidatesFor df b = [] := by
  rw [List.eq_nil_iff_forall_not_mem, List.eq_nil_iff_forall_not_mem]
  simp [candidatesFor_goalSort]

theorem qty_bounds (x : ℚ) :
    (1/2 : ℚ) ≤ max (1/2) (min x 3) ∧ max (1/2) (min x 3) ≤ 3 :=
  ⟨le_max_left _ _, max_le (by norm_num) (min_le_right _ _)⟩

theorem pyInt_cals_bounds {c q : ℚ} (hc : 0 < c) (h1 : 1/2 ≤ q) (h2 : q ≤ 3) :
    (1/2) * c - 1 < (pyInt (c * q) : ℚ) ∧ (pyInt (c * q) : ℚ) ≤ 3 * c := by
  have hx : 0 ≤ c * q := mul_nonneg hc.le (le_trans (by norm_num) h1)
  rw [pyInt, if_neg (not_lt.mpr hx)]
  constructor
  · have hlow : (1/2) * c ≤ c * q := by
      rw [mul_comm]
      exact mul_le_mul_of_nonneg_left h1 hc.le
    have hfl := Int.sub_one_lt_floor (c * q)
    linarith
  · have hhi : c * q ≤ 3 * c := by
      rw [mul_comm 3 c]
      exact mul_le_mul_of_nonneg_left h2 hc.le
    have hfl := Int.floor_le (c * q)
    linarith

theorem best_eq_none {score : String → String → ℚ} {q : String}
    {l : List (ℕ × String)} : best score q l = none ↔ l = [] := by
  cases l with
  | nil => simp [best]
  | cons p rest =>
    obtain ⟨i, c⟩ := p
    simp only [best]
    cases hb : best score q rest with
    | none => simp
    | some b =>
      simp only [Option.elim_some]
      split <;> simp

theorem best_mem {score : String → String → ℚ} {q : String}
    {l : List (ℕ × String)} {b : String × ℚ × ℕ}
    (h : best score q l = some b) :
    (b.2.2, b.1) ∈ l ∧ b.2.1 = score q b.1 := by
  induction l generalizing b with
  | nil => simp [best] at h
  | cons p rest ih =>
    obtain ⟨i, c⟩ := p
    simp only [best] at h
    cases hb : best score q rest with
    | none =>
      rw [hb] at h
      simp only [Option.elim_none] at h
      injection h with h
      subst h
      simp
    | some b' =>
      rw [hb] at h
      simp only [Option.elim_some] at h
      by_cases hc : score q c < b'.2.1
      · rw [if_pos hc] at h
        injection h with h
        subst h
        exact ⟨List.mem_cons_of_mem _ (ih hb).1, (ih hb).2⟩
      · rw [if_neg hc] at h
        injection h with h
        subst h
        simp

theorem best_le {score : String → String → ℚ} {q : String}
    {l : List (ℕ × String)} {b : String × ℚ × ℕ}
    (h : best score q l = some b) :
    ∀ p ∈ l, score q p.2 ≤ b.2.1 := by
  induction l generalizing b with
  | nil => simp
  | cons hd rest ih =>
    obtain ⟨i, c⟩ := hd
    intro p hp
    simp only [best] at h
    cases hb : best score q rest with
    | none =>
      rw [hb] at h
      simp only [Option.elim_none] at h
      injection h with h
      subst h
      have hrest : rest = [] := best_eq_none.mp hb
      subst hrest
      simp only [List.mem_singleton] at hp
      subst hp
      simp
    | some b' =>
      rw [hb] at h
      simp only [Option.elim_some] at h
      rcases List.mem_cons.mp hp with rfl | hmem
      · by_cases hc : score q c < b'.2.1
        · rw [if_pos hc] at h
          injection h with h
          subst h
          exact hc.le
        · rw [if_neg hc] at h
          injection h with h
          subst h
          simp
      · have hle := ih hb p hmem
        by_cases hc : score q c < b'.2.1
        · rw [if_pos hc] at h
          injection h with h
          subst h
          exact hle
        · rw [if_neg hc] at h
          injection h with h
          subst h
          exact le_trans hle (not_lt.mp hc)

theorem best_strict {score : String → String → ℚ} {q : String}
    {l : List (ℕ × String)} {i : ℕ} {c : String}
    (hmem : (i, c) ∈ l)
    (hstrict : ∀ p ∈ l, p ≠ (i, c) → score q p.2 < score q c) :
    best score q l = some (c, score q c, i) := by
  induction l with
  | nil => simp at hmem
  | cons hd rest ih =>
    obtain ⟨j, d⟩ := hd
    by_cases hhd : (j, d) = (i, c)
    · obtain ⟨rfl, rfl⟩ := Prod.mk.inj hhd
      simp only [best]
      cases hb : best score q rest with
      | none => rfl
      | some b' =>
        have hb' := best_mem hb
        have hbl : b'.2.1 ≤ score q d := by
          rcases eq_or_ne (b'.2.2, b'.1) (j, d) with he | hne
          · rw [hb'.2, (Prod.mk.inj he).2]
          · exact hb'.2 ▸ (hstrict (b'.2.2, b'.1) (List.mem_cons_of_mem _ hb'.1) hne).le
        simp only [Option.elim_some]
        rw [if_neg (not_lt.mpr hbl)]
    · have hmem' : (i, c) ∈ rest := by
        rcases List.mem_cons.mp hmem with he | hm
        · exact absurd he.symm hhd
        · exact hm
      have ihr := ih hmem' (fun p hp hne => hstrict p (List.mem_cons_of_mem _ hp) hne)
      simp only [best, ihr, Option.elim_some]
      rw [if_pos (hstrict (j, d) (List.mem_cons_self _ _) hhd)]

theorem withIdx_mem_get {l : List String} {j : ℕ} (hj : j < l.length) (n : ℕ) :
    (n + j, l.get ⟨j, hj⟩) ∈ withIdx n l := by
  induction l generalizing n j with
  | nil => simp at hj
  | cons c cs ih =>
    cases j with
    | zero => simp [withIdx]
    | succ j' =>
      have hj' : j' < cs.length := by simpa using hj
      have hmem := ih hj' (n + 1)
      simp only [withIdx, List.mem_cons]
      right
      have harith : n + 1 + j' = n + (j' + 1) := by omega
      rw [harith] at hmem
      exact hmem

theorem withIdx_shape {l : List String} {n : ℕ} {p : ℕ × String}
    (hp : p ∈ withIdx n l) :
    ∃ j, ∃ hj : j < l.length, p = (n + j, l.get ⟨j, hj⟩) := by
  induction l generalizing n with
  | nil => simp [withIdx] at hp
  | cons c cs ih =>
    simp only [withIdx, List.mem_cons] at hp
    rcases hp with rfl | hp
    · exact ⟨0, by simp, by simp⟩
    · obtain ⟨j, hj, rfl⟩ := ih hp
      refine ⟨j + 1, by simpa using Nat.succ_lt_succ hj, ?_⟩
      have harith : n + 1 + j = n + (j + 1) := by omega
      rw [harith]
      rfl

theorem runLen_eq {s : List ℤ} {d : ℤ} {N fuel : ℕ} (hfuel : N ≤ fuel)
    (hmem : ∀ k : ℕ, k < N → d - (k : ℤ) ∈ s)
    (hgap : d - (N : ℤ) ∉ s) : runLen fuel s d = N := by
  induction N generalizing d fuel with
  | zero =>
    have hd : d ∉ s := by simpa using hgap
    cases fuel with
    | zero => rfl
    | succ f => simp [runLen, hd]
  | succ N ih =>
    cases fuel with
    | zero => omega
    | succ f =>
      have hd : d ∈ s := by simpa using hmem 0 (Nat.succ_pos N)
      have hrest : runLen f s (d - 1) = N := by
        refine ih (by omega) (fun k hk => ?_) ?_
        · have hk1 := hmem (k + 1) (by omega)
          have harith : d - 1 - (k : ℤ) = d - ((k : ℤ) + 1) := by ring
          rw [harith]
          simpa using hk1
        · have harith : d - 1 - (N : ℤ) = d - ((N : ℤ) + 1) := by ring
          rw [harith]
          simpa using hgap
      simp [runLen, hd, hrest]

theorem consec_le_length {s : List ℤ} {d : ℤ} {N : ℕ}
    (hmem : ∀ k : ℕ, k < N → d - (k : ℤ) ∈ s) : N ≤ s.length := by
  have hinj : Function.Injective (fun k : ℕ => d - (k : ℤ)) := by
    intro a b hab
    simp only [sub_right_inj, Nat.cast_inj] at hab
    exact hab
  have hnd : ((List.range N).map (fun k : ℕ => d - (k : ℤ))).Nodup :=
    (List.nodup_range N).map hinj
  have hsub : ((List.range N).map (fun k : ℕ => d - (k : ℤ))) ⊆ s := by
    intro x hx
    obtain ⟨k, hk, rfl⟩ := List.mem_map.mp hx
    exact hmem k (List.mem_range.mp hk)
  have hlen := (List.subperm_of_subset hnd hsub).length_le
  simpa using hlen

/-! ## Claim theorems -/

/-- Claim C1, counterexample: for the input (Male, 25, 170cm, 70kg,
"Sedentary (Office)", Weight Gain) the stored macro triple is
(50, 25, 25) with first component 50, the claim's formula
`round(targetCalories * proteinPercent / 100 / 4)` gives 309, but
`save_profile` stores 154 protein grams (it uses `macros[1] = 25` and
`int()` truncation). -/
theorem c1_counterexample :
    save_profile "A" 25 "Male" 170 70 "Sedentary (Office)" "Weight Gain" 2500 =
      some profileWG ∧
    profileWG.targets.mSplit.1 = 50 ∧
    round ((profileWG.targets.calories : ℚ) * (profileWG.targets.mSplit.1 : ℚ) / 100 / 4) = 309 ∧
    profileWG.targets.protein = 154 ∧
    profileWG.targets.protein ≠
      round ((profileWG.targets.calories : ℚ) * (profileWG.targets.mSplit.1 : ℚ) / 100 / 4) := by
  refine ⟨by with_unfolding_all rfl, by decide, by with_unfolding_all rfl,
    by decide, by with_unfolding_all decide⟩

/-- Claim C1, amended: the target-protein-grams field produced by
`save_profile` equals the un-truncated target calories times the SECOND
component of the goal's macro triple over 100, divided by 4, truncated
toward zero (`int`), i.e. `specProteinGrams`. -/
theorem c1_amended (name : String) (age : ℚ) (gender : String)
    (height weight : ℚ) (activity goal : String) (water : ℤ) (w : String)
    (p : Profile) (hw : firstWord activity = some w)
    (hp : save_profile name age gender height weight activity goal water = some p) :
    p.targets.protein = specProteinGrams age gender height weight w goal := by
  simp only [save_profile, hw] at hp
  injection hp with hp
  subst hp
  simp only [specProteinGrams, specTargetCalories, specSecondPct, goalAdjust]
  split_ifs <;> (apply congrArg pyInt; push_cast; ring)

/-- Witness for the amended claim C1 at a concrete profile input. -/
theorem c1_amended_witness :
    ∃ p, save_profile "A" 25 "Male" 170 70 "Sedentary (Office)" "Weight Gain" 2500 = some p ∧
      p.targets.protein = specProteinGrams 25 "Male" 170 70 "Sedentary" "Weight Gain" :=
  ⟨profileWG, by with_unfolding_all rfl,
   c1_amended "A" 25 "Male" 170 70 "Sedentary (Office)" "Weight Gain" 2500
     "Sedentary" profileWG (by with_unfolding_all rfl) (by with_unfolding_all rfl)⟩

/-- Claim C2, counterexample: for (Male, 25, 170cm, 70kg, "Moderately
Active", Weight Loss) the code yields target calories 2045 and protein
grams 204, not the claimed 2093 and 209 (the claim's worked example
miscomputes the basal rate: 10*70 + 6.25*170 - 5*25 + 5 = 1642.5, not
1673.5). -/
theorem c2_counterexample :
    save_profile "A" 25 "Male" 170 70 "Moderately Active" "Weight Loss" 2500 =
      some profileWL ∧
    profileWL.targets.calories = 2045 ∧ profileWL.targets.protein = 204 ∧
    profileWL.targets.calories ≠ 2093 ∧ profileWL.targets.protein ≠ 209 := by
  refine ⟨by with_unfolding_all rfl, by decide, by decide, by decide, by decide⟩

/-- Claim C2, amended: `save_profile` computes target calories by the
stated Mifflin-St Jeor / activity-factor / goal-offset formula
(truncated to an integer), and in particular the input (Male, 25, 170cm,
70kg, "Moderately Active", Weight Loss) yields target calories 2045 and
protein grams 204. -/
theorem c2_amended (name : String) (age : ℚ) (gender : String)
    (height weight : ℚ) (activity goal : String) (water : ℤ) (w : String)
    (p : Profile) (hw : firstWord activity = some w)
    (hp : save_profile name age gender height weight activity goal water = some p) :
    p.targets.calories = pyInt (specTargetCalories age gender height weight w goal) ∧
    ∃ q, save_profile "A" 25 "Male" 170 70 "Moderately Active" "Weight Loss" 2500 = some q ∧
      q.targets.calories = 2045 ∧ q.targets.protein = 204 := by
  constructor
  · simp only [save_profile, hw] at hp
    injection hp with hp
    subst hp
    simp only [specTargetCalories, goalAdjust]
    split_ifs <;> (apply congrArg pyInt; ring)
  · exact ⟨profileWL, by with_unfolding_all rfl, by decide, by decide⟩

/-- Witness for the amended claim C2 at a concrete profile input. -/
theorem c2_amended_witness :
    ∃ p, save_profile "A" 25 "Male" 170 70 "Moderately Active" "Weight Loss" 2500 = some p ∧
      p.targets.calories = pyInt (specTargetCalories 25 "Male" 170 70 "Moderately" "Weight Loss") ∧
      ∃ q, save_profile "A" 25 "Male" 170 70 "Moderately Active" "Weight Loss" 2500 = some q ∧
        q.targets.calories = 2045 ∧ q.targets.protein = 204 := by
  refine ⟨profileWL, by with_unfolding_all rfl, ?_⟩
  exact c2_amended "A" 25 "Male" 170 70 "Moderately Active" "Weight Loss" 2500
    "Moderately" profileWL (by with_unfolding_all rfl) (by with_unfolding_all rfl)

/-- Claim C9: `load_data_safe` never raises for a missing or zero-length
source: it returns the no-data sentinel (`none`) for a missing file, a
zero-length file and a header-only (empty) table, returns the parsed
rows otherwise, and indeed never propagates an error for any source
state. -/
theorem c9_load_data_safe (α : Type) :
    load_data_safe (CsvSource.missing : CsvSource α) = .ok none ∧
    load_data_safe (CsvSource.zeroLength : CsvSource α) = .ok none ∧
    load_data_safe (CsvSource.parsed ([] : List α)) = .ok none ∧
    (∀ (r : α) (rs : List α),
      load_data_safe (CsvSource.parsed (r :: rs)) = .ok (some (r :: rs))) ∧
    (∀ f : CsvSource α, ∃ res, load_data_safe f = .ok res) := by
  refine ⟨rfl, rfl, rfl, fun r rs => rfl, fun f => ?_⟩
  cases f with
  | missing => exact ⟨none, rfl⟩
  | zeroLength => exact ⟨none, rfl⟩
  | parsed rows =>
    cases rows with
    | nil => exact ⟨none, rfl⟩
    | cons r rs => exact ⟨some (r :: rs), rfl⟩

/-- Claim C10: `calculate_streak` mutates its input: for every non-empty
food-log table the caller's table afterwards carries the added
`DateObj` column. -/
theorem c10_streak_mutates (dates : List (Option ℤ)) (cols : List String)
    (today : ℤ) (h : dates ≠ []) :
    (calculate_streak (some ⟨dates, cols⟩) today).2 =
      some ⟨dates, addDateObjCol cols⟩ ∧
    "DateObj" ∈ addDateObjCol cols := by
  constructor
  · simp [calculate_streak, h]
  · unfold addDateObjCol
    split
    · assumption
    · simp

/-- Witness for claim C10 at a concrete one-row log. -/
theorem c10_streak_mutates_witness :
    (calculate_streak (some ⟨[some 5], ["Date"]⟩) 7).2 =
      some ⟨[some 5], addDateObjCol ["Date"]⟩ ∧
    "DateObj" ∈ addDateObjCol ["Date"] :=
  c10_streak_mutates [some 5] ["Date"] 7 (by decide)

/-- Claim C8: `calculate_streak` returns 0 for a missing or empty log,
1 when exactly today is logged, N when the distinct parseable days
include the N consecutive days ending today with no gap, falls back to
counting from yesterday when today is absent, and returns 0 when
neither today nor yesterday is present. -/
theorem c8_streak (today : ℤ) (log : List (Option ℤ)) (cols : List String) (N : ℕ) :
    (calculate_streak none today).1 = 0 ∧
    (calculate_streak (some ⟨[], cols⟩) today).1 = 0 ∧
    (validDates log = [today] → (calculate_streak (some ⟨log, cols⟩) today).1 = 1) ∧
    (0 < N → (∀ k : ℕ, k < N → today - (k : ℤ) ∈ validDates log) →
      today - (N : ℤ) ∉ validDates log →
      (calculate_streak (some ⟨log, cols⟩) today).1 = N) ∧
    (0 < N → today ∉ validDates log →
      (∀ k : ℕ, k < N → today - 1 - (k : ℤ) ∈ validDates log) →
      today - 1 - (N : ℤ) ∉ validDates log →
      (calculate_streak (some ⟨log, cols⟩) today).1 = N) ∧
    (today ∉ validDates log → today - 1 ∉ validDates log →
      (calculate_streak (some ⟨log, cols⟩) today).1 = 0) := by
  have hnodup : (validDates log).Nodup := List.nodup_dedup _
  refine ⟨rfl, rfl, ?_, ?_, ?_, ?_⟩
  · intro hv
    have hlog : log ≠ [] := by
      intro he
      subst he
      simp [validDates] at hv
    simp only [calculate_streak, if_neg hlog]
    simp only [streakVal, hv]
    norm_num [runLen]
  · intro hN hmem hgap
    have htoday : today ∈ validDates log := by
      have h0 := hmem 0 hN
      simpa using h0
    have hlog : log ≠ [] := by
      intro he
      subst he
      simp [validDates] at htoday
    have hfuel : N ≤ (validDates log).length := consec_le_length hmem
    simp only [calculate_streak, if_neg hlog]
    have hne : validDates log ≠ [] := List.ne_nil_of_mem htoday
    simp only [streakVal, if_neg hne, if_pos htoday]
    exact runLen_eq hfuel hmem hgap
  · intro hN htoday hmem hgap
    have hyest : today - 1 ∈ validDates log := by
      have h0 := hmem 0 hN
      simpa using h0
    have hlog : log ≠ [] := by
      intro he
      subst he
      simp [validDates] at hyest
    have hfuel : N ≤ (validDates log).length := consec_le_length hmem
    simp only [calculate_streak, if_neg hlog]
    have hne : validDates log ≠ [] := List.ne_nil_of_mem hyest
    simp only [streakVal, if_neg hne, if_neg htoday, if_pos hyest]
    exact runLen_eq hfuel hmem hgap
  · intro htoday hyest
    by_cases hlog : log = []
    · subst hlog
      rfl
    · simp only [calculate_streak, if_neg hlog]
      simp only [streakVal, if_neg htoday, if_neg hyest]
      split <;> rfl

/-- Witness for claim C8: a log with days 100, 99 and 97 gives streak 2
on day 100, and a stale log gives streak 0. -/
theorem c8_streak_witness :
    (calculate_streak (some ⟨[some 100, some 99, none, some 97], ["Date"]⟩) 100).1 = 2 ∧
    (calculate_streak (some ⟨[some 50], ["Date"]⟩) 100).1 = 0 := by
  constructor
  · exact (c8_streak 100 [some 100, some 99, none, some 97] ["Date"] 2).2.2.2.1
      (by decide) (by decide) (by decide)
  · exact (c8_streak 100 [some 50] ["Date"] 0).2.2.2.2.2 (by decide) (by decide)

/-- Claim C3: for every nonempty diet-filtered catalog, target, goal and
random outcome, `generate_meal_plan` succeeds (`some`), and every meal
names an item drawn from the ±150 kcal budget window of its slot, or
from the entire filtered catalog when that window is empty. -/
theorem c3_selection_within_pool (df0 : List FoodItem) (target : ℚ)
    (goal diet_pref : String) (days : ℕ) (r : ℕ → ℕ)
    (h : dietFilter diet_pref df0 ≠ []) :
    ∃ plan, generate_meal_plan df0 target goal diet_pref days r = some plan ∧
      ∀ day ∈ plan, ∀ meal ∈ day.meals, ∃ slot ∈ budgets, meal.type = slot.1 ∧
        ∃ item, meal.dish = item.dishName ∧
          (item ∈ candidatesFor (dietFilter diet_pref df0) (target * slot.2) ∨
            (candidatesFor (dietFilter diet_pref df0) (target * slot.2) = [] ∧
              item ∈ dietFilter diet_pref df0)) := by
  have hdf2 : goalSort goal (dietFilter diet_pref df0) ≠ [] := by
    intro hnil
    exact h (goalSort_eq_nil.mp hnil)
  refine ⟨_, generate_eq_some h, ?_⟩
  intro day hday meal hmeal
  obtain ⟨d, _, rfl⟩ := List.mem_map.mp hday
  obtain ⟨slot, hslot, n, rfl⟩ := mem_mkMeals hmeal
  obtain ⟨item, hitem, heq⟩ := makeMeal_spec _ target slot n hdf2
  refine ⟨slot, hslot, by rw [heq], item, by rw [heq], ?_⟩
  rcases mem_selPool_cases hitem with hc | ⟨hnil, hmem⟩
  · exact Or.inl (candidatesFor_goalSort.mp hc)
  · exact Or.inr ⟨candidatesFor_goalSort_nil.mp hnil, mem_goalSort.mp hmem⟩

/-- Witness for claim C3 at a concrete catalog and parameters. -/
theorem c3_selection_within_pool_witness :
    ∃ plan, generate_meal_plan dfVeg 1000 "Maintain" "Vegetarian" 1 (fun _ => 0) = some plan ∧
      ∀ day ∈ plan, ∀ meal ∈ day.meals, ∃ slot ∈ budgets, meal.type = slot.1 ∧
        ∃ item, meal.dish = item.dishName ∧
          (item ∈ candidatesFor (dietFilter "Vegetarian" dfVeg) (1000 * slot.2) ∨
            (candidatesFor (dietFilter "Vegetarian" dfVeg) (1000 * slot.2) = [] ∧
              item ∈ dietFilter "Vegetarian" dfVeg)) :=
  c3_selection_within_pool dfVeg 1000 "Maintain" "Vegetarian" 1 (fun _ => 0)
    (by with_unfolding_all decide)

set_option maxRecDepth 8000 in
/-- Claim C4, counterexample: with a 125 kcal-per-serving item, target
500 kcal, goal Maintain, the Snack meal (budget 50) gets quantity 0.5
and recorded calories `int(125 * 0.5) = 62`, which is strictly below
0.5 x 125 = 62.5 — the claimed lower bound `0.5 x caloriesPerServing`
fails. -/
theorem c4_counterexample :
    generate_meal_plan dfX 500 "Maintain" "Non-Vegetarian" 1 (fun _ => 0) = some cxPlan ∧
    (∀ it ∈ dfX, it.calories = 125) ∧
    ∃ day ∈ cxPlan, ∃ meal ∈ day.meals, meal.dish = "Paneer Tikka" ∧
      meal.qty = 1/2 ∧ meal.cals = 62 ∧
      ¬ ((1/2 : ℚ) * 125 ≤ (meal.cals : ℚ)) := by
  refine ⟨by with_unfolding_all rfl, by with_unfolding_all decide, ?_⟩
  refine ⟨cxPlan.head (by with_unfolding_all decide), by with_unfolding_all decide, ?_⟩
  refine ⟨⟨"Snack", "Paneer Tikka", 1/2, "1 bowl", 62, "Veg"⟩, by with_unfolding_all decide, ?_⟩
  refine ⟨rfl, by with_unfolding_all decide, rfl, by with_unfolding_all decide⟩

/-- Claim C4, amended: each meal's quantity is the budget over the
item's calories per serving, rounded to one decimal and clamped to
[0.5, 3.0]; its recorded calories are the integer truncation of
calories-per-serving x quantity, which lies in
(0.5 x cps - 1, 3 x cps] (the truncation can undershoot the claimed
0.5 x cps bound by less than one kcal); each day has four meals whose
calorie sum is the day total.  Stated for catalogs of items with
positive calories per serving. -/
theorem c4_amended (df0 : List FoodItem) (target : ℚ)
    (goal diet_pref : String) (days : ℕ) (r : ℕ → ℕ)
    (hpos : ∀ it ∈ df0, 0 < it.calories)
    (h : dietFilter diet_pref df0 ≠ []) :
    ∃ plan, generate_meal_plan df0 target goal diet_pref days r = some plan ∧
      ∀ day ∈ plan, day.meals.length = 4 ∧
        day.total = (day.meals.map Meal.cals).sum ∧
        ∀ meal ∈ day.meals, ∃ slot ∈ budgets, ∃ item ∈ dietFilter diet_pref df0,
          meal.dish = item.dishName ∧
          meal.qty = max (1/2) (min (pyRound1 (target * slot.2 / item.calories)) 3) ∧
          (1/2 : ℚ) ≤ meal.qty ∧ meal.qty ≤ 3 ∧
          meal.cals = pyInt (item.calories * meal.qty) ∧
          (1/2) * item.calories - 1 < (meal.cals : ℚ) ∧
          (meal.cals : ℚ) ≤ 3 * item.calories := by
  have hdf2 : goalSort goal (dietFilter diet_pref df0) ≠ [] := by
    intro hnil
    exact h (goalSort_eq_nil.mp hnil)
  refine ⟨_, generate_eq_some h, ?_⟩
  intro day hday
  obtain ⟨d, _, rfl⟩ := List.mem_map.mp hday
  refine ⟨by simpa [mkDay, budgets] using mkMeals_length _ _ _ _ _, rfl, ?_⟩
  intro meal hmeal
  obtain ⟨slot, hslot, n, rfl⟩ := mem_mkMeals hmeal
  obtain ⟨item, hitem, heq⟩ := makeMeal_spec _ target slot n hdf2
  have hitem1 : item ∈ dietFilter diet_pref df0 :=
    mem_goalSort.mp (selPool_sub hitem)
  have hcpos : 0 < item.calories := hpos item (dietFilter_sub hitem1)
  have hq := qty_bounds (pyRound1 (target * slot.2 / item.calories))
  have hb := pyInt_cals_bounds hcpos hq.1 hq.2
  refine ⟨slot, hslot, item, hitem1, by rw [heq], by rw [heq], ?_, ?_, by rw [heq], ?_, ?_⟩
  · rw [heq]; exact hq.1
  · rw [heq]; exact hq.2
  · rw [heq]; exact hb.1
  · rw [heq]; exact hb.2

/-- Witness for the amended claim C4 at a concrete catalog. -/
theorem c4_amended_witness :
    ∃ plan, generate_meal_plan dfVeg 1000 "Maintain" "Vegetarian" 1 (fun _ => 0) = some plan ∧
      ∀ day ∈ plan, day.meals.length = 4 ∧
        day.total = (day.meals.map Meal.cals).sum ∧
        ∀ meal ∈ day.meals, ∃ slot ∈ budgets, ∃ item ∈ dietFilter "Vegetarian" dfVeg,
          meal.dish = item.dishName ∧
          meal.qty = max (1/2) (min (pyRound1 (1000 * slot.2 / item.calories)) 3) ∧
          (1/2 : ℚ) ≤ meal.qty ∧ meal.qty ≤ 3 ∧
          meal.cals = pyInt (item.calories * meal.qty) ∧
          (1/2) * item.calories - 1 < (meal.cals : ℚ) ∧
          (meal.cals : ℚ) ≤ 3 * item.calories :=
  c4_amended dfVeg 1000 "Maintain" "Vegetarian" 1 (fun _ => 0)
    (by with_unfolding_all decide) (by with_unfolding_all decide)

/-- Claim C5: with a Vegetarian preference every generated meal names a
catalog item whose diet class is Veg; with a Non-Vegetarian preference
the diet-filter step excludes nothing from the candidate catalog. -/
theorem c5_diet_filter (df0 : List FoodItem) (target : ℚ) (goal : String)
    (days : ℕ) (r : ℕ → ℕ) :
    (∀ plan, generate_meal_plan df0 target goal "Vegetarian" days r = some plan →
      ∀ day ∈ plan, ∀ meal ∈ day.meals,
        ∃ item ∈ df0, meal.dish = item.dishName ∧ item.diet = "Veg") ∧
    dietFilter "Non-Vegetarian" df0 = df0 := by
  constructor
  · intro plan hplan day hday meal hmeal
    by_cases hnil : goalSort goal (dietFilter "Vegetarian" df0) = []
    · rw [generate_meal_plan, if_pos hnil] at hplan
      exact absurd hplan (by simp)
    · rw [generate_meal_plan, if_neg hnil] at hplan
      injection hplan with hplan
      subst hplan
      obtain ⟨d, _, rfl⟩ := List.mem_map.mp hday
      obtain ⟨slot, hslot, n, rfl⟩ := mem_mkMeals hmeal
      obtain ⟨item, hitem, heq⟩ := makeMeal_spec _ target slot n hnil
      have hveg := mem_dietFilter_veg (mem_goalSort.mp (selPool_sub hitem))
      exact ⟨item, hveg.1, by rw [heq], hveg.2⟩
  · rfl

set_option maxRecDepth 8000 in
/-- Witness for claim C5: concrete Vegetarian plan from `dfVeg` plus the
no-exclusion equation for the Non-Vegetarian preference. -/
theorem c5_diet_filter_witness :
    (∃ item ∈ dfVeg,
      (⟨"Breakfast", "Roti", 21/10, "1 piece", 252, "Veg"⟩ : Meal).dish = item.dishName ∧
      item.diet = "Veg") ∧
    dietFilter "Non-Vegetarian" dfVeg = dfVeg := by
  have h := c5_diet_filter dfVeg 1000 "Maintain" 1 (fun _ => 0)
  refine ⟨?_, h.2⟩
  exact h.1 vegPlan (by with_unfolding_all rfl)
    (vegPlan.head (by with_unfolding_all decide)) (by with_unfolding_all decide)
    ⟨"Breakfast", "Roti", 21/10, "1 piece", 252, "Veg"⟩ (by with_unfolding_all decide)

/-- Claim C6: the matcher returns the single highest-similarity entry's
index when that entry's score is at least the threshold 70 (strictly
above every other entry), and returns `none` whenever no catalog entry
scores at least 70 against the query. -/
theorem c6_matcher_threshold (score : String → String → ℚ)
    (choices : List String) (q : String) :
    (∀ i (hi : i < choices.length),
      (∀ j (hj : j < choices.length), j ≠ i →
        score q (choices.get ⟨j, hj⟩) < score q (choices.get ⟨i, hi⟩)) →
      70 ≤ score q (choices.get ⟨i, hi⟩) →
      Matcher score choices q = some i) ∧
    ((∀ j (hj : j < choices.length), score q (choices.get ⟨j, hj⟩) < 70) →
      Matcher score choices q = none) := by
  constructor
  · intro i hi hstrict hth
    have hmem := withIdx_mem_get hi 0
    rw [Nat.zero_add] at hmem
    have hstrict' : ∀ p ∈ withIdx 0 choices, p ≠ (i, choices.get ⟨i, hi⟩) →
        score q p.2 < score q (choices.get ⟨i, hi⟩) := by
      intro p hp hne
      obtain ⟨j, hj, rfl⟩ := withIdx_shape hp
      rw [Nat.zero_add] at hne
      by_cases hji : j = i
      · subst hji
        exact absurd rfl hne
      · exact hstrict j hj hji
    have hbest := best_strict hmem hstrict'
    simp only [Matcher, extractOne, hbest, Option.elim_some]
    rw [if_pos hth]
    rfl
  · intro hall
    cases hbest : best score q (withIdx 0 choices) with
    | none => simp [Matcher, extractOne, hbest]
    | some b =>
      obtain ⟨hmem, hsc⟩ := best_mem hbest
      obtain ⟨j, hj, hshape⟩ := withIdx_shape hmem
      rw [Nat.zero_add] at hshape
      have hlt : b.2.1 < 70 := by
        rw [hsc, (Prod.mk.inj hshape).2]
        exact hall j hj
      simp only [Matcher, extractOne, hbest, Option.elim_some]
      rw [if_neg (not_le.mpr hlt)]
      rfl

/-- Witness for claim C6: exact-match scorer on the default symptom
catalog; "Fever" strictly dominates and is returned, "Zzz" scores below
70 everywhere and yields no match. -/
theorem c6_matcher_threshold_witness :
    Matcher eqScore defaultSymptoms "Fever" = some 1 ∧
    Matcher eqScore defaultSymptoms "Zzz" = none := by
  constructor
  · exact (c6_matcher_threshold eqScore defaultSymptoms "Fever").1 1
      (by decide) (by with_unfolding_all decide) (by with_unfolding_all decide)
  · exact (c6_matcher_threshold eqScore defaultSymptoms "Zzz").2
      (by with_unfolding_all decide)

/-- Claim C7: when the normalized query (whitespace-trimmed and
title-cased, as `Chatbot` does) exactly equals a catalog entry's
symptom name, the matcher returns that entry's index and the underlying
`extractOne` carries similarity score 100.  The fuzzy scorer is modelled
abstractly by the properties an exact match needs: self-similarity 100,
100 as an upper bound, and 100 only on equal strings. -/
theorem c7_exact_match (score : String → String → ℚ) (choices : List String)
    (inp : String) (i : ℕ) (hi : i < choices.length)
    (hself : ∀ x, score x x = 100) (hub : ∀ x y, score x y ≤ 100)
    (hdisc : ∀ x y, score x y = 100 → x = y) (hnd : choices.Nodup)
    (hq : cleanInput inp = choices.get ⟨i, hi⟩) :
    Matcher score choices (cleanInput inp) = some i ∧
    extractOne score (cleanInput inp) choices 70 =
      some (choices.get ⟨i, hi⟩, 100, i) := by
  have hscore_i : score (cleanInput inp) (choices.get ⟨i, hi⟩) = 100 := by
    rw [hq]
    exact hself _
  have hstrict' : ∀ p ∈ withIdx 0 choices, p ≠ (i, choices.get ⟨i, hi⟩) →
      score (cleanInput inp) p.2 < score (cleanInput inp) (choices.get ⟨i, hi⟩) := by
    intro p hp hne
    obtain ⟨j, hj, rfl⟩ := withIdx_shape hp
    rw [Nat.zero_add] at hne
    by_cases hji : j = i
    · subst hji
      exact absurd rfl hne
    · have hne2 : choices.get ⟨j, hj⟩ ≠ choices.get ⟨i, hi⟩ := by
        intro he
        exact hji (Fin.mk.inj_iff.mp (hnd.get_inj_iff.mp he))
      have hne100 : score (cleanInput inp) (choices.get ⟨j, hj⟩) ≠ 100 := by
        intro he
        exact hne2 ((hdisc _ _ he).symm.trans hq)
      rw [hscore_i]
      exact lt_of_le_of_ne (hub _ _) hne100
  have hmem := withIdx_mem_get hi 0
  rw [Nat.zero_add] at hmem
  have hbest := best_strict hmem hstrict'
  constructor
  · simp only [Matcher, extractOne, hbest, Option.elim_some, hscore_i]
    rw [if_pos (by norm_num : (70:ℚ) ≤ 100)]
    rfl
  · simp only [extractOne, hbest, Option.elim_some, hscore_i]
    rw [if_pos (by norm_num : (70:ℚ) ≤ 100)]

/-- Witness for claim C7: the query " headache " normalizes to
"Headache", the first default catalog entry, and is matched with score
100 under the exact-match scorer. -/
theorem c7_exact_match_witness :
    Matcher eqScore defaultSymptoms (cleanInput " headache ") = some 0 ∧
    extractOne eqScore (cleanInput " headache ") defaultSymptoms 70 =
      some ("Headache", 100, 0) := by
  have hself : ∀ x, eqScore x x = 100 := by
    intro x
    simp [eqScore]
  have hub : ∀ x y, eqScore x y ≤ 100 := by
    intro x y
    unfold eqScore
    split <;> norm_num
  have hdisc : ∀ x y, eqScore x y = 100 → x = y := by
    intro x y h
    unfold eqScore at h
    split at h
    · assumption
    · norm_num at h
  exact c7_exact_match eqScore defaultSymptoms " headache " 0 (by decide)
    hself hub hdisc (by decide) (by with_unfolding_all decide)
